import Mathlib

/-!
# Verification of the struqture-py mixed open-system migration

This file shallowly embeds `src/struqture-py/src/mixed_systems/mixed_open_system.rs`
(the `MixedLindbladOpenSystemWrapper` binding: its constructor and the
`from_struqture_two` migration routine) together with the parts of the
struqture core that the binding calls but that are not under `src/`
(key grammar, operator containers, version metadata check).  Those parts
are modelled from the specification; each such definition carries a doc
comment starting `Modelled from the spec:`.

Conventions of the embedding:
* Key text is modelled at the token level (`List Tok`); the spec fixes a
  delimiter-based textual grammar but no concrete character syntax, so a
  lexed token stream is the faithful level of abstraction.
* Python-level fallibility (`call_method0`, `extract`, `serde_json`) is
  modelled by explicit sum types recording which stage would fail.
* `bincode::deserialize` is an external capability; a byte buffer is
  modelled as either corrupt, or as encoding a foreign system value.
-/

namespace Struqture

/-- Tokens of the textual key grammar.  `S`/`B`/`F` mark a spin, boson or
fermion subsystem section, `colon` is the section delimiter, `c`/`a` mark a
creator/annihilator index, and `opX`/`opiY`/`opZ` are the single-spin
decoherence operators. -/
inductive Tok where
  | S : Tok
  | B : Tok
  | F : Tok
  | colon : Tok
  | num : Nat → Tok
  | c : Tok
  | a : Tok
  | opX : Tok
  | opiY : Tok
  | opZ : Tok
deriving DecidableEq, Repr

/-- A single-spin decoherence operator (the alphabet of a spin
decoherence product). -/
inductive SpinOp where
  | X : SpinOp
  | iY : SpinOp
  | Z : SpinOp
deriving DecidableEq, Repr

/-- Modelled from the spec: a spin decoherence product, an ordered canonical
encoding of single-qubit decoherence operators, one `(qubit index, operator)`
pair per acted-on qubit. -/
structure SpinDecoherenceProduct where
  ops : List (Nat × SpinOp)
deriving DecidableEq, Repr

/-- Modelled from the spec: a bosonic product, a pair of ordered creator and
annihilator mode-index lists. -/
structure BosonProduct where
  creators : List Nat
  annihilators : List Nat
deriving DecidableEq, Repr

/-- Modelled from the spec: a fermionic product, a pair of ordered creator and
annihilator mode-index lists. -/
structure FermionProduct where
  creators : List Nat
  annihilators : List Nat
deriving DecidableEq, Repr

/-- Modelled from the spec: a mixed (decoherence) product — an ordered triple
of per-species product tuples, one entry per subsystem of each species. -/
structure MixedDecoherenceProduct where
  spins : List SpinDecoherenceProduct
  bosons : List BosonProduct
  fermions : List FermionProduct
deriving DecidableEq, Repr

/-! ## Rendering keys to their canonical textual (token) form -/

/-- Token of a single spin operator. -/
def SpinOp.tok : SpinOp → Tok
  | SpinOp.X => Tok.opX
  | SpinOp.iY => Tok.opiY
  | SpinOp.Z => Tok.opZ

/-- Body of a spin section: the `(index, operator)` pairs, flattened. -/
def renderSpinOps (ops : List (Nat × SpinOp)) : List Tok :=
  ops.flatMap fun io => [Tok.num io.1, io.2.tok]

/-- Textual form of one spin subsystem: marker `S` followed by the body. -/
def renderSpinSeg (p : SpinDecoherenceProduct) : List Tok :=
  Tok.S :: renderSpinOps p.ops

/-- Creator indices, each tagged with `c`. -/
def renderCreators (l : List Nat) : List Tok :=
  l.flatMap fun i => [Tok.c, Tok.num i]

/-- Annihilator indices, each tagged with `a`. -/
def renderAnnihilators (l : List Nat) : List Tok :=
  l.flatMap fun i => [Tok.a, Tok.num i]

/-- Textual form of one boson subsystem: marker `B`, creators, annihilators. -/
def renderBosonSeg (p : BosonProduct) : List Tok :=
  Tok.B :: (renderCreators p.creators ++ renderAnnihilators p.annihilators)

/-- Textual form of one fermion subsystem: marker `F`, creators, annihilators. -/
def renderFermionSeg (p : FermionProduct) : List Tok :=
  Tok.F :: (renderCreators p.creators ++ renderAnnihilators p.annihilators)

/-- Modelled from the spec: canonical textual form of a mixed product.  The
three per-species section lists are composed in the fixed order spins, bosons,
fermions, delimited by `colon` (the delimiter never occurs inside a section). -/
def renderMixed (p : MixedDecoherenceProduct) : List Tok :=
  [Tok.colon].intercalate
    (p.spins.map renderSpinSeg ++ p.bosons.map renderBosonSeg ++
      p.fermions.map renderFermionSeg)

/-! ## Parsing textual keys (the current grammar) -/

/-- Inverse of `SpinOp.tok`, `none` on non-operator tokens. -/
def tokSpinOp : Tok → Option SpinOp
  | Tok.opX => some SpinOp.X
  | Tok.opiY => some SpinOp.iY
  | Tok.opZ => some SpinOp.Z
  | _ => none

/-- Parse the body of a spin section: a sequence of `(index, operator)`
pairs filling the whole body. -/
def parseSpinOps : List Tok → Option (List (Nat × SpinOp))
  | [] => some []
  | Tok.num i :: t :: rest =>
    match tokSpinOp t, parseSpinOps rest with
    | some o, some tl => some ((i, o) :: tl)
    | _, _ => none
  | _ => none

/-- Parse a maximal prefix of `c`-tagged creator indices, returning the
remaining tokens. -/
def parseCreators : List Tok → Option (List Nat × List Tok)
  | Tok.c :: Tok.num i :: rest =>
    match parseCreators rest with
    | some (l, rem) => some (i :: l, rem)
    | none => none
  | toks => some ([], toks)

/-- Parse a sequence of `a`-tagged annihilator indices filling the rest of
the body. -/
def parseAnnihilators : List Tok → Option (List Nat)
  | [] => some []
  | Tok.a :: Tok.num i :: rest =>
    match parseAnnihilators rest with
    | some l => some (i :: l)
    | none => none
  | _ => none

/-- Parse the body of a boson/fermion section: creators then annihilators. -/
def parseLadderBody (toks : List Tok) : Option (List Nat × List Nat) :=
  match parseCreators toks with
  | some (cs, rest) =>
    match parseAnnihilators rest with
    | some ann => some (cs, ann)
    | none => none
  | none => none

/-- One parsed section of a mixed-product text. -/
inductive Segment where
  | spin : SpinDecoherenceProduct → Segment
  | boson : BosonProduct → Segment
  | fermion : FermionProduct → Segment
deriving DecidableEq, Repr

/-- Parse one delimiter-free section: a species marker followed by the
species' body. -/
def parseSegment : List Tok → Option Segment
  | Tok.S :: body =>
    match parseSpinOps body with
    | some ops => some (Segment.spin ⟨ops⟩)
    | none => none
  | Tok.B :: body =>
    match parseLadderBody body with
    | some cl => some (Segment.boson ⟨cl.1, cl.2⟩)
    | none => none
  | Tok.F :: body =>
    match parseLadderBody body with
    | some cl => some (Segment.fermion ⟨cl.1, cl.2⟩)
    | none => none
  | _ => none

def Segment.isSpin : Segment → Bool
  | Segment.spin _ => true
  | _ => false

def Segment.isBoson : Segment → Bool
  | Segment.boson _ => true
  | _ => false

def Segment.isFermion : Segment → Bool
  | Segment.fermion _ => true
  | _ => false

def Segment.getSpin : Segment → Option SpinDecoherenceProduct
  | Segment.spin p => some p
  | _ => none

def Segment.getBoson : Segment → Option BosonProduct
  | Segment.boson p => some p
  | _ => none

def Segment.getFermion : Segment → Option FermionProduct
  | Segment.fermion p => some p
  | _ => none

/-- Regroup a parsed section list into a mixed product; the sections must
appear in the fixed order spins, bosons, fermions. -/
def groupSegments (segs : List Segment) : Option MixedDecoherenceProduct :=
  let sp := segs.takeWhile Segment.isSpin
  let rest := segs.dropWhile Segment.isSpin
  let bo := rest.takeWhile Segment.isBoson
  let rest2 := rest.dropWhile Segment.isBoson
  let fe := rest2.takeWhile Segment.isFermion
  let rest3 := rest2.dropWhile Segment.isFermion
  if rest3 = [] then
    some ⟨sp.filterMap Segment.getSpin, bo.filterMap Segment.getBoson,
      fe.filterMap Segment.getFermion⟩
  else none

/-- Parse every section of a delimiter-split text; any single failure fails
the whole parse. -/
def parseSections : List (List Tok) → Option (List Segment)
  | [] => some []
  | s :: rest =>
    match parseSegment s, parseSections rest with
    | some seg, some segs => some (seg :: segs)
    | _, _ => none

/-- Modelled from the spec: `MixedDecoherenceProduct::from_str`, the current
grammar's parser for plain mixed products.  Splits on the delimiter, parses
each section, and regroups; any text not matching the grammar yields `none`
(the embedding of a `ParseError`). -/
def MixedDecoherenceProduct.from_str (toks : List Tok) :
    Option MixedDecoherenceProduct :=
  if toks = [] then some ⟨[], [], []⟩
  else
    match parseSections (toks.splitOn Tok.colon) with
    | some segs => groupSegments segs
    | none => none

/-- Per-species parser for a standalone spin product (its textual form is its
single section). -/
def SpinDecoherenceProduct.from_str (toks : List Tok) :
    Option SpinDecoherenceProduct :=
  (parseSegment toks).bind Segment.getSpin

/-- Per-species parser for a standalone boson product. -/
def BosonProduct.from_str (toks : List Tok) : Option BosonProduct :=
  (parseSegment toks).bind Segment.getBoson

/-- Per-species parser for a standalone fermion product. -/
def FermionProduct.from_str (toks : List Tok) : Option FermionProduct :=
  (parseSegment toks).bind Segment.getFermion

/-! ## Hermitian mixed products -/

/-- Numeric code of a token, used for the total order on key texts. -/
def Tok.code : Tok → Nat × Nat
  | Tok.S => (0, 0)
  | Tok.B => (1, 0)
  | Tok.F => (2, 0)
  | Tok.colon => (3, 0)
  | Tok.num n => (4, n)
  | Tok.c => (5, 0)
  | Tok.a => (6, 0)
  | Tok.opX => (7, 0)
  | Tok.opiY => (8, 0)
  | Tok.opZ => (9, 0)

/-- Strict order on token codes. -/
def pairLt (x y : Nat × Nat) : Bool :=
  x.1 < y.1 || (x.1 = y.1 && x.2 < y.2)

/-- Lexicographic order on token lists (total order on key texts). -/
def tokListLe : List Tok → List Tok → Bool
  | [], _ => true
  | _ :: _, [] => false
  | t1 :: r1, t2 :: r2 =>
    if pairLt t1.code t2.code then true
    else if pairLt t2.code t1.code then false
    else tokListLe r1 r2

/-- Hermitian conjugate of a boson product: creators and annihilators swap. -/
def BosonProduct.conj (p : BosonProduct) : BosonProduct :=
  ⟨p.annihilators, p.creators⟩

/-- Hermitian conjugate of a fermion product: creators and annihilators swap. -/
def FermionProduct.conj (p : FermionProduct) : FermionProduct :=
  ⟨p.annihilators, p.creators⟩

/-- Modelled from the spec: the Hermitian conjugate of a mixed product.  Spin
decoherence operators are self-conjugate up to a phase (which lives in the
coefficient, not the key); ladder products swap creators and annihilators. -/
def MixedDecoherenceProduct.conj (p : MixedDecoherenceProduct) :
    MixedDecoherenceProduct :=
  ⟨p.spins, p.bosons.map BosonProduct.conj, p.fermions.map FermionProduct.conj⟩

/-- Modelled from the spec: a mixed product is the canonical representative of
its conjugate-symmetric pair when its text does not exceed its conjugate's in
the total key order (a deterministic choice of representative). -/
def hermitianCanonical (p : MixedDecoherenceProduct) : Bool :=
  tokListLe (renderMixed p) (renderMixed p.conj)

/-- Modelled from the spec: a Hermitian mixed product is a mixed product
normalized to the canonical representative of its conjugate pair. -/
def HermitianMixedProduct : Type :=
  { p : MixedDecoherenceProduct // hermitianCanonical p = true }

instance : DecidableEq HermitianMixedProduct :=
  Subtype.instDecidableEq

/-- Canonical textual form of a Hermitian mixed product: that of the
underlying mixed product. -/
def HermitianMixedProduct.render (k : HermitianMixedProduct) : List Tok :=
  renderMixed k.val

/-- Modelled from the spec: `HermitianMixedProduct::from_str`.  Parses the
text as a mixed product and requires the canonical-representative discipline;
non-canonical text is rejected. -/
def HermitianMixedProduct.from_str (toks : List Tok) :
    Option HermitianMixedProduct :=
  match MixedDecoherenceProduct.from_str toks with
  | some p =>
    if h : hermitianCanonical p = true then some ⟨p, h⟩ else none
  | none => none

/-! ## Validity (canonical ordering inside each product) -/

/-- A spin decoherence product is valid when its qubit indices strictly
increase. -/
def SpinDecoherenceProduct.valid (p : SpinDecoherenceProduct) : Prop :=
  (p.ops.map Prod.fst).Pairwise (· < ·)

instance (p : SpinDecoherenceProduct) : Decidable p.valid :=
  List.instDecidablePairwise _

/-- A boson product is valid when creators and annihilators are each sorted
nondecreasing. -/
def BosonProduct.valid (p : BosonProduct) : Prop :=
  p.creators.Pairwise (· ≤ ·) ∧ p.annihilators.Pairwise (· ≤ ·)

instance (p : BosonProduct) : Decidable p.valid := instDecidableAnd

/-- A fermion product is valid when creators and annihilators each strictly
increase. -/
def FermionProduct.valid (p : FermionProduct) : Prop :=
  p.creators.Pairwise (· < ·) ∧ p.annihilators.Pairwise (· < ·)

instance (p : FermionProduct) : Decidable p.valid := instDecidableAnd

/-- A mixed product is valid when every per-species component is. -/
def MixedDecoherenceProduct.valid (p : MixedDecoherenceProduct) : Prop :=
  (∀ s ∈ p.spins, s.valid) ∧ (∀ b ∈ p.bosons, b.valid) ∧
    (∀ f ∈ p.fermions, f.valid)

/-! ## Coefficients and operator containers -/

/-- Modelled from the spec: a complex coefficient (the numeric fragment of
the calculator-complex value type; symbolic entries are carried opaquely by
migration and are not needed by any claim). -/
structure CalculatorComplex where
  re : Rat
  im : Rat
deriving DecidableEq, Repr

/-- The zero coefficient, returned by container lookup at an absent key. -/
def CalculatorComplex.zero : CalculatorComplex := ⟨0, 0⟩

/-- Error type of the current-format containers. -/
inductive StruqtureError where
  | MismatchedNumberSubsystems : StruqtureError
deriving DecidableEq, Repr

/-- Overwrite-insertion into an association list: replaces the value at an
existing key in place, appends a fresh key at the end. -/
def assocSet {α β : Type} [DecidableEq α] :
    List (α × β) → α → β → List (α × β)
  | [], k, v => [(k, v)]
  | (k', v') :: t, k, v =>
    if k' = k then (k, v) :: t else (k', v') :: assocSet t k v

/-- Does a mixed product's species-tuple arity fit the three count vectors? -/
def arityOk (ns nb nf : List (Option Nat)) (p : MixedDecoherenceProduct) :
    Bool :=
  p.spins.length = ns.length && p.bosons.length = nb.length &&
    p.fermions.length = nf.length

/-- Modelled from the spec: the Hamiltonian container — a mapping from
Hermitian mixed products to coefficients, owned together with the three
(possibly unresolved) per-species count vectors. -/
structure MixedHamiltonianSystem where
  number_spins : List (Option Nat)
  number_bosons : List (Option Nat)
  number_fermions : List (Option Nat)
  internal : List (HermitianMixedProduct × CalculatorComplex)
deriving DecidableEq

/-- Modelled from the spec: `set` on the Hamiltonian container — overwrite
semantics; a key whose species-tuple arity mismatches the container's
expected arity is a fatal `DimensionMismatch`-style error, not padded. -/
def MixedHamiltonianSystem.set (sys : MixedHamiltonianSystem)
    (k : HermitianMixedProduct) (v : CalculatorComplex) :
    Except StruqtureError MixedHamiltonianSystem :=
  if arityOk sys.number_spins sys.number_bosons sys.number_fermions k.val then
    Except.ok { sys with internal := assocSet sys.internal k v }
  else Except.error StruqtureError.MismatchedNumberSubsystems

/-- `get` on the Hamiltonian container: the stored value, or zero. -/
def MixedHamiltonianSystem.get (sys : MixedHamiltonianSystem)
    (k : HermitianMixedProduct) : CalculatorComplex :=
  (sys.internal.lookup k).getD CalculatorComplex.zero

/-- Modelled from the spec: the noise (dissipator) container — a mapping from
ordered pairs of plain mixed products to coefficients. -/
structure MixedLindbladNoiseSystem where
  number_spins : List (Option Nat)
  number_bosons : List (Option Nat)
  number_fermions : List (Option Nat)
  internal :
    List ((MixedDecoherenceProduct × MixedDecoherenceProduct) ×
      CalculatorComplex)
deriving DecidableEq

/-- Modelled from the spec: `set` on the noise container — overwrite
semantics; each half of the ordered key pair must fit the container's
arity. -/
def MixedLindbladNoiseSystem.set (sys : MixedLindbladNoiseSystem)
    (k : MixedDecoherenceProduct × MixedDecoherenceProduct)
    (v : CalculatorComplex) :
    Except StruqtureError MixedLindbladNoiseSystem :=
  if arityOk sys.number_spins sys.number_bosons sys.number_fermions k.1 &&
      arityOk sys.number_spins sys.number_bosons sys.number_fermions k.2 then
    Except.ok { sys with internal := assocSet sys.internal k v }
  else Except.error StruqtureError.MismatchedNumberSubsystems

/-- `get` on the noise container: the stored value, or zero. -/
def MixedLindbladNoiseSystem.get (sys : MixedLindbladNoiseSystem)
    (k : MixedDecoherenceProduct × MixedDecoherenceProduct) :
    CalculatorComplex :=
  (sys.internal.lookup k).getD CalculatorComplex.zero

/-- Modelled from the spec: the open-system aggregate, owning exactly one
Hamiltonian container and one noise container (each carrying the shared count
vectors). -/
structure MixedLindbladOpenSystem where
  system : MixedHamiltonianSystem
  noise : MixedLindbladNoiseSystem
deriving DecidableEq

/-- Modelled from the spec: `MixedLindbladOpenSystem::new` — an empty open
system with the given (possibly unresolved) per-species count vectors. -/
def MixedLindbladOpenSystem.new (ns nb nf : List (Option Nat)) :
    MixedLindbladOpenSystem :=
  ⟨⟨ns, nb, nf, []⟩, ⟨ns, nb, nf, []⟩⟩

/-- The exposed wrapper holding the internal open system
(`MixedLindbladOpenSystemWrapper` in the binding). -/
structure MixedLindbladOpenSystemWrapper where
  internal : MixedLindbladOpenSystem
deriving DecidableEq

/-- `MixedLindbladOpenSystemWrapper::new`: wraps
`MixedLindbladOpenSystem::new` on the three count vectors. -/
def MixedLindbladOpenSystemWrapper.new (ns nb nf : List (Option Nat)) :
    MixedLindbladOpenSystemWrapper :=
  ⟨MixedLindbladOpenSystem.new ns nb nf⟩

/-- The constructor called with no arguments: the pyo3 signature defaults
every count vector to `vec![None]`. -/
def MixedLindbladOpenSystemWrapper.newDefault : MixedLindbladOpenSystemWrapper :=
  MixedLindbladOpenSystemWrapper.new [none] [none] [none]

/-! ## The foreign (struqture 2.x) representation and serialisation metadata -/

/-- A semantic version triple. -/
structure StruqtureVersion where
  major : Nat
  minor : Nat
  patch : Nat
deriving DecidableEq, Repr

/-- Lexicographic order on version triples. -/
def versionLe (x y : StruqtureVersion) : Bool :=
  x.major < y.major ||
    (x.major = y.major &&
      (x.minor < y.minor || (x.minor = y.minor && x.patch ≤ y.patch)))

/-- Modelled from the spec: `struqture_two::StruqtureSerialisationMeta` — the
descriptor a serialized representation publishes: the serialized type's name,
its producer's own version, and the oldest reader version it supports. -/
structure StruqtureSerialisationMeta where
  type_name : String
  version : StruqtureVersion
  min_version : StruqtureVersion
deriving DecidableEq, Repr

/-- The current reader's own version (the struqture-2 compatibility layer the
binding links against). -/
def STRUQTURE_TWO_VERSION : StruqtureVersion := ⟨2, 0, 0⟩

/-- Modelled from the spec: the target descriptor published by
`MixedLindbladOpenSystem as SerializationSupport`. -/
def target_serialisation_meta : StruqtureSerialisationMeta :=
  ⟨"MixedLindbladOpenSystem", STRUQTURE_TWO_VERSION, STRUQTURE_TWO_VERSION⟩

/-- Errors of the foreign compatibility check. -/
inductive StruqtureTwoError where
  | TypeMismatch : StruqtureTwoError
  | IncompatibleVersion : StruqtureTwoError
deriving DecidableEq, Repr

/-- Rendered message of a foreign compatibility error (`err.to_string()`). -/
def StruqtureTwoError.toMessage : StruqtureTwoError → String
  | StruqtureTwoError.TypeMismatch => "Type name mismatch"
  | StruqtureTwoError.IncompatibleVersion => "Incompatible version"

/-- Modelled from the spec: `struqture_two::check_can_be_deserialised` — the
version gate.  Fails when the type names differ, or when the source's
minimum-supported version is newer than the current reader's own version. -/
def check_can_be_deserialised
    (target source : StruqtureSerialisationMeta) :
    Except StruqtureTwoError Unit :=
  if source.type_name ≠ target.type_name then
    Except.error StruqtureTwoError.TypeMismatch
  else if versionLe source.min_version target.version then Except.ok ()
  else Except.error StruqtureTwoError.IncompatibleVersion

/-- Modelled from the spec: the foreign (struqture 2.x) open system as seen by
migration.  Foreign keys enter migration only through their textual form
(`key.to_string()`), so they are embedded as their texts; the three
`current_number_*` vectors are the foreign system's observed per-subsystem
widths. -/
structure TwoMixedLindbladOpenSystem where
  current_number_spins : List Nat
  current_number_bosonic_modes : List Nat
  current_number_fermionic_modes : List Nat
  systemEntries : List (List Tok × CalculatorComplex)
  noiseEntries : List ((List Tok × List Tok) × CalculatorComplex)
deriving DecidableEq

/-- A byte buffer handed to `bincode::deserialize`, modelled by its decode
outcome: either corrupt (any structural mismatch), or a faithful encoding of
a foreign open system. -/
inductive ByteBuf where
  | corrupt : ByteBuf
  | encodes : TwoMixedLindbladOpenSystem → ByteBuf
deriving DecidableEq

/-- Modelled from the spec: `bincode::deserialize` on a byte buffer — fails
(with the bincode error's message) on any structural mismatch. -/
def deserialize : ByteBuf → Except String TwoMixedLindbladOpenSystem
  | ByteBuf.corrupt => Except.error "invalid byte layout"
  | ByteBuf.encodes sys => Except.ok sys

/-! ## The Python-facing input and error model -/

/-- Outcome of obtaining the serialisation metadata from the input object:
`input._get_serialisation_meta()` may be absent/raise, its result may fail to
extract as a string, the string may fail to parse as metadata JSON, or a
metadata value is obtained. -/
inductive MetaResult where
  | methodMissing : MetaResult
  | notAString : MetaResult
  | invalidJson : MetaResult
  | ok : StruqtureSerialisationMeta → MetaResult
deriving DecidableEq

/-- Outcome of obtaining the byte buffer from the input object:
`input.to_bincode()` may be absent/raise, its result may fail to extract as
`Vec<u8>`, or a buffer is obtained. -/
inductive BytesResult where
  | methodMissing : BytesResult
  | notBytes : BytesResult
  | ok : ByteBuf → BytesResult
deriving DecidableEq

/-- The duck-typed Python argument of `from_struqture_two`, reduced to the
two capabilities the routine probes. -/
structure PyInput where
  meta : MetaResult
  bytes : BytesResult
deriving DecidableEq

/-- A raised Python exception: `PyTypeError` or `PyValueError` with its
message. -/
inductive PyErr where
  | typeError : String → PyErr
  | valueError : String → PyErr
deriving DecidableEq, Repr

/-- The message raised whenever the input does not behave as a struqture-py
object (metadata method absent, non-string result, or unparseable JSON). -/
def notStruqtureObjMsg : String :=
  "Trying to use Python object as a struqture-py object that does not behave as struqture-py object. Are you sure you have the right type to all functions?"

/-- The message raised when a foreign key's text fails to reparse under the
current grammar. -/
def conversionFailedMsg : String :=
  "Trying to obtain struqture 1.x MixedLindbladOpenSystem from struqture 2.x MixedLindbladOpenSystem. Conversion failed. Was the right type passed to all functions?"

/-! ## The migration routine `from_struqture_two` -/

/-- One iteration of the Hamiltonian loop of `from_struqture_two` (source
lines 154–162): render the foreign key to text and reparse it as a current
`HermitianMixedProduct`; a reparse failure raises `PyValueError` through `?`.
The insertion is `let _ = mixed_system.system_mut().set(..)`: its `Result` is
discarded, and since `set` validates before mutating, a failed insertion
leaves the system unchanged. -/
def hamStep (sys : MixedLindbladOpenSystem)
    (kv : List Tok × CalculatorComplex) :
    Except PyErr MixedLindbladOpenSystem :=
  match HermitianMixedProduct.from_str kv.1 with
  | none => Except.error (PyErr.valueError conversionFailedMsg)
  | some self_key =>
    match sys.system.set self_key kv.2 with
    | Except.ok s => Except.ok { sys with system := s }
    | Except.error _ => Except.ok sys

/-- One iteration of the noise loop of `from_struqture_two` (source lines
164–176): reparse each half of the foreign key pair independently (left
first); either failure raises `PyValueError` through `?`.  The insertion is
`let _ = mixed_system.noise_mut().set(..)`: its `Result` is discarded. -/
def noiseStep (sys : MixedLindbladOpenSystem)
    (kv : (List Tok × List Tok) × CalculatorComplex) :
    Except PyErr MixedLindbladOpenSystem :=
  match MixedDecoherenceProduct.from_str kv.1.1 with
  | none => Except.error (PyErr.valueError conversionFailedMsg)
  | some key_left =>
    match MixedDecoherenceProduct.from_str kv.1.2 with
    | none => Except.error (PyErr.valueError conversionFailedMsg)
    | some key_right =>
      match sys.noise.set (key_left, key_right) kv.2 with
      | Except.ok s => Except.ok { sys with noise := s }
      | Except.error _ => Except.ok sys

/-- The Hamiltonian `for` loop of `from_struqture_two`: fold `hamStep` over
the foreign Hamiltonian's entries, aborting at the first error (`?`). -/
def hamLoop (sys : MixedLindbladOpenSystem) :
    List (List Tok × CalculatorComplex) →
      Except PyErr MixedLindbladOpenSystem
  | [] => Except.ok sys
  | kv :: rest =>
    match hamStep sys kv with
    | Except.ok s => hamLoop s rest
    | Except.error e => Except.error e

/-- The noise `for` loop of `from_struqture_two`: fold `noiseStep` over the
foreign noise container's entries, aborting at the first error (`?`). -/
def noiseLoop (sys : MixedLindbladOpenSystem) :
    List ((List Tok × List Tok) × CalculatorComplex) →
      Except PyErr MixedLindbladOpenSystem
  | [] => Except.ok sys
  | kv :: rest =>
    match noiseStep sys kv with
    | Except.ok s => noiseLoop s rest
    | Except.error e => Except.error e

/-- `MixedLindbladOpenSystemWrapper::from_struqture_two` (source lines
111–182), step for step: obtain and parse the serialisation metadata (three
failure modes, one shared `PyTypeError`), run the version gate, obtain the
byte buffer (`to_bincode` then `Vec<u8>` extraction), bincode-decode it, size
three all-`None` count vectors by the lengths of the foreign
`current_number_*` vectors, and replay the foreign Hamiltonian and noise
entries through text reparse and (result-discarded) `set`. -/
def from_struqture_two (input : PyInput) :
    Except PyErr MixedLindbladOpenSystemWrapper :=
  match input.meta with
  | MetaResult.methodMissing => Except.error (PyErr.typeError notStruqtureObjMsg)
  | MetaResult.notAString => Except.error (PyErr.typeError notStruqtureObjMsg)
  | MetaResult.invalidJson => Except.error (PyErr.typeError notStruqtureObjMsg)
  | MetaResult.ok source_serialisation_meta =>
    match check_can_be_deserialised target_serialisation_meta
        source_serialisation_meta with
    | Except.error err => Except.error (PyErr.typeError err.toMessage)
    | Except.ok () =>
      match input.bytes with
      | BytesResult.methodMissing =>
        Except.error (PyErr.typeError "Serialisation failed")
      | BytesResult.notBytes =>
        Except.error (PyErr.typeError "Deserialisation failed")
      | BytesResult.ok buf =>
        match deserialize buf with
        | Except.error err =>
          Except.error (PyErr.typeError ("Type conversion failed: " ++ err))
        | Except.ok two_import =>
          let spin_systems : List (Option Nat) :=
            List.replicate two_import.current_number_spins.length none
          let bosonic_systems : List (Option Nat) :=
            List.replicate two_import.current_number_bosonic_modes.length none
          let fermionic_systems : List (Option Nat) :=
            List.replicate two_import.current_number_fermionic_modes.length none
          let mixed_system : MixedLindbladOpenSystem :=
            MixedLindbladOpenSystem.new spin_systems bosonic_systems
              fermionic_systems
          match hamLoop mixed_system two_import.systemEntries with
          | Except.error e => Except.error e
          | Except.ok after_ham =>
            match noiseLoop after_ham two_import.noiseEntries with
            | Except.error e => Except.error e
            | Except.ok after_noise =>
              Except.ok ⟨after_noise⟩

/-! ## Round-trip lemmas for the key grammar -/

theorem tokSpinOp_tok (o : SpinOp) : tokSpinOp o.tok = some o := by
  cases o <;> rfl

theorem parseSpinOps_render (ops : List (Nat × SpinOp)) :
    parseSpinOps (renderSpinOps ops) = some ops := by
  induction ops with
  | nil => rfl
  | cons io rest ih =>
    rw [show renderSpinOps (io :: rest) =
      Tok.num io.1 :: io.2.tok :: renderSpinOps rest from rfl]
    simp only [parseSpinOps, tokSpinOp_tok, ih]

theorem parseAnnihilators_render (l : List Nat) :
    parseAnnihilators (renderAnnihilators l) = some l := by
  induction l with
  | nil => rfl
  | cons i rest ih =>
    rw [show renderAnnihilators (i :: rest) =
      Tok.a :: Tok.num i :: renderAnnihilators rest from rfl]
    simp only [parseAnnihilators, ih]

theorem parseCreators_render (cs : List Nat) (rest : List Tok)
    (h : rest.head? ≠ some Tok.c) :
    parseCreators (renderCreators cs ++ rest) = some (cs, rest) := by
  induction cs with
  | nil =>
    simp only [renderCreators, List.flatMap_nil, List.nil_append]
    match rest, h with
    | [], _ => rfl
    | Tok.S :: _, _ => rfl
    | Tok.B :: _, _ => rfl
    | Tok.F :: _, _ => rfl
    | Tok.colon :: _, _ => rfl
    | Tok.num _ :: _, _ => rfl
    | Tok.c :: _, h => simp at h
    | Tok.a :: _, _ => rfl
    | Tok.opX :: _, _ => rfl
    | Tok.opiY :: _, _ => rfl
    | Tok.opZ :: _, _ => rfl
  | cons i tl ih =>
    rw [show renderCreators (i :: tl) ++ rest =
      Tok.c :: Tok.num i :: (renderCreators tl ++ rest) from rfl]
    simp only [parseCreators, ih]

theorem renderAnnihilators_head (l : List Nat) :
    (renderAnnihilators l).head? ≠ some Tok.c := by
  cases l <;> simp [renderAnnihilators]

theorem parseLadderBody_render (cs ann : List Nat) :
    parseLadderBody (renderCreators cs ++ renderAnnihilators ann) =
      some (cs, ann) := by
  unfold parseLadderBody
  rw [parseCreators_render cs _ (renderAnnihilators_head ann)]
  simp [parseAnnihilators_render]

theorem parseSegment_renderSpinSeg (p : SpinDecoherenceProduct) :
    parseSegment (renderSpinSeg p) = some (Segment.spin p) := by
  simp [parseSegment, renderSpinSeg, parseSpinOps_render]

theorem parseSegment_renderBosonSeg (p : BosonProduct) :
    parseSegment (renderBosonSeg p) = some (Segment.boson p) := by
  simp [parseSegment, renderBosonSeg, parseLadderBody_render]

theorem parseSegment_renderFermionSeg (p : FermionProduct) :
    parseSegment (renderFermionSeg p) = some (Segment.fermion p) := by
  simp [parseSegment, renderFermionSeg, parseLadderBody_render]

theorem colon_not_mem_renderSpinSeg (p : SpinDecoherenceProduct) :
    Tok.colon ∉ renderSpinSeg p := by
  intro h
  simp only [renderSpinSeg, renderSpinOps, List.mem_cons,
    List.mem_flatMap] at h
  rcases h with h | ⟨⟨i, o⟩, _, h⟩
  · simp at h
  · simp only [List.mem_cons, List.not_mem_nil, or_false] at h
    rcases h with h | h
    · simp at h
    · cases o <;> simp [SpinOp.tok] at h

theorem colon_not_mem_ladder (cs ann : List Nat) :
    Tok.colon ∉ renderCreators cs ++ renderAnnihilators ann := by
  intro h
  rcases List.mem_append.mp h with h | h
  · simp only [renderCreators, List.mem_flatMap, List.mem_cons,
      List.not_mem_nil, or_false] at h
    rcases h with ⟨i, _, h | h⟩ <;> simp at h
  · simp only [renderAnnihilators, List.mem_flatMap, List.mem_cons,
      List.not_mem_nil, or_false] at h
    rcases h with ⟨i, _, h | h⟩ <;> simp at h

theorem colon_not_mem_renderBosonSeg (p : BosonProduct) :
    Tok.colon ∉ renderBosonSeg p := by
  intro h
  simp only [renderBosonSeg, List.mem_cons] at h
  rcases h with h | h
  · exact absurd h (by simp)
  · exact colon_not_mem_ladder _ _ h

theorem colon_not_mem_renderFermionSeg (p : FermionProduct) :
    Tok.colon ∉ renderFermionSeg p := by
  intro h
  simp only [renderFermionSeg, List.mem_cons] at h
  rcases h with h | h
  · exact absurd h (by simp)
  · exact colon_not_mem_ladder _ _ h

/-- `parseSections` distributes over append when both halves succeed. -/
theorem parseSections_append {l1 l2 : List (List Tok)}
    {r1 r2 : List Segment} (h1 : parseSections l1 = some r1)
    (h2 : parseSections l2 = some r2) :
    parseSections (l1 ++ l2) = some (r1 ++ r2) := by
  induction l1 generalizing r1 with
  | nil =>
    simp only [parseSections, Option.some.injEq] at h1
    simp [← h1, h2]
  | cons x xs ih =>
    simp only [parseSections] at h1
    cases hx : parseSegment x with
    | none => rw [hx] at h1; simp at h1
    | some seg =>
      rw [hx] at h1
      cases hxs : parseSections xs with
      | none => rw [hxs] at h1; simp at h1
      | some segs =>
        rw [hxs] at h1
        simp only [Option.some.injEq] at h1
        subst h1
        simp only [List.cons_append, parseSections, hx, List.append_eq,
          ih hxs]

theorem parseSections_map_spin (l : List SpinDecoherenceProduct) :
    parseSections (l.map renderSpinSeg) = some (l.map Segment.spin) := by
  induction l with
  | nil => rfl
  | cons p rest ih =>
    simp [parseSections, parseSegment_renderSpinSeg, ih]

theorem parseSections_map_boson (l : List BosonProduct) :
    parseSections (l.map renderBosonSeg) = some (l.map Segment.boson) := by
  induction l with
  | nil => rfl
  | cons p rest ih =>
    simp [parseSections, parseSegment_renderBosonSeg, ih]

theorem parseSections_map_fermion (l : List FermionProduct) :
    parseSections (l.map renderFermionSeg) = some (l.map Segment.fermion) := by
  induction l with
  | nil => rfl
  | cons p rest ih =>
    simp [parseSections, parseSegment_renderFermionSeg, ih]

/-- `takeWhile`/`dropWhile` on a list whose first block satisfies the
predicate and whose remainder starts (if at all) with a failing element. -/
theorem takeWhile_dropWhile_append {α : Type} (pred : α → Bool)
    (l1 l2 : List α) (h1 : ∀ x ∈ l1, pred x = true)
    (h2 : ∀ x, l2.head? = some x → pred x = false) :
    (l1 ++ l2).takeWhile pred = l1 ∧ (l1 ++ l2).dropWhile pred = l2 := by
  induction l1 with
  | nil =>
    simp only [List.nil_append]
    cases l2 with
    | nil => simp
    | cons y ys =>
      have := h2 y (by rfl)
      simp [List.takeWhile_cons, List.dropWhile_cons, this]
  | cons x xs ih =>
    have hx := h1 x (List.mem_cons_self x xs)
    have := ih (fun z hz => h1 z (List.mem_cons_of_mem x hz))
    simp [List.takeWhile_cons, List.dropWhile_cons, hx, this.1, this.2]

theorem filterMap_getSpin_map (l : List SpinDecoherenceProduct) :
    (l.map Segment.spin).filterMap Segment.getSpin = l := by
  induction l with
  | nil => rfl
  | cons p rest ih => simp [Segment.getSpin, ih]

theorem filterMap_getBoson_map (l : List BosonProduct) :
    (l.map Segment.boson).filterMap Segment.getBoson = l := by
  induction l with
  | nil => rfl
  | cons p rest ih => simp [Segment.getBoson, ih]

theorem filterMap_getFermion_map (l : List FermionProduct) :
    (l.map Segment.fermion).filterMap Segment.getFermion = l := by
  induction l with
  | nil => rfl
  | cons p rest ih => simp [Segment.getFermion, ih]

theorem renderSpinSeg_ne_nil (p : SpinDecoherenceProduct) :
    renderSpinSeg p ≠ [] := by
  simp [renderSpinSeg]

theorem renderBosonSeg_ne_nil (p : BosonProduct) : renderBosonSeg p ≠ [] := by
  simp [renderBosonSeg]

theorem renderFermionSeg_ne_nil (p : FermionProduct) :
    renderFermionSeg p ≠ [] := by
  simp [renderFermionSeg]

/-- Regrouping a section list that is spins-then-bosons-then-fermions
recovers the mixed product. -/
theorem groupSegments_canonical (sp : List SpinDecoherenceProduct)
    (bo : List BosonProduct) (fe : List FermionProduct) :
    groupSegments (sp.map Segment.spin ++
      (bo.map Segment.boson ++ fe.map Segment.fermion)) =
      some ⟨sp, bo, fe⟩ := by
  have hsp : ∀ x ∈ sp.map Segment.spin, Segment.isSpin x = true := by
    intro x hx
    obtain ⟨q, _, rfl⟩ := List.mem_map.mp hx
    rfl
  have hhd1 : ∀ x,
      (bo.map Segment.boson ++ fe.map Segment.fermion).head? = some x →
        Segment.isSpin x = false := by
    intro x hx
    rcases List.mem_append.mp (List.mem_of_mem_head? hx) with h | h
    · obtain ⟨q, _, rfl⟩ := List.mem_map.mp h
      rfl
    · obtain ⟨q, _, rfl⟩ := List.mem_map.mp h
      rfl
  obtain ⟨ht1, hd1⟩ := takeWhile_dropWhile_append Segment.isSpin _ _ hsp hhd1
  have hbo : ∀ x ∈ bo.map Segment.boson, Segment.isBoson x = true := by
    intro x hx
    obtain ⟨q, _, rfl⟩ := List.mem_map.mp hx
    rfl
  have hhd2 : ∀ x, (fe.map Segment.fermion).head? = some x →
      Segment.isBoson x = false := by
    intro x hx
    obtain ⟨q, _, rfl⟩ := List.mem_map.mp (List.mem_of_mem_head? hx)
    rfl
  obtain ⟨ht2, hd2⟩ := takeWhile_dropWhile_append Segment.isBoson _ _ hbo hhd2
  have hfe : ∀ x ∈ fe.map Segment.fermion, Segment.isFermion x = true := by
    intro x hx
    obtain ⟨q, _, rfl⟩ := List.mem_map.mp hx
    rfl
  have hhd3 : ∀ x, ([] : List Segment).head? = some x →
      Segment.isFermion x = false := by
    intro x hx
    simp at hx
  obtain ⟨ht3, hd3⟩ :=
    takeWhile_dropWhile_append Segment.isFermion (fe.map Segment.fermion) []
      hfe hhd3
  rw [List.append_nil] at ht3 hd3
  unfold groupSegments
  simp only [ht1, hd1, ht2, hd2, ht3, hd3]
  rw [filterMap_getSpin_map, filterMap_getBoson_map, filterMap_getFermion_map]
  simp

/-- **Round trip for plain mixed products**: the canonical text of any mixed
product reparses to it. -/
theorem from_str_renderMixed (p : MixedDecoherenceProduct) :
    MixedDecoherenceProduct.from_str (renderMixed p) = some p := by
  rcases p with ⟨sp, bo, fe⟩
  by_cases hsegs : (sp.map renderSpinSeg ++ bo.map renderBosonSeg ++
      fe.map renderFermionSeg) = []
  · rw [List.append_eq_nil, List.append_eq_nil] at hsegs
    obtain ⟨⟨h1, h2⟩, h3⟩ := hsegs
    rw [List.map_eq_nil_iff] at h1 h2 h3
    subst h1; subst h2; subst h3
    rfl
  · have hcf : ∀ l ∈ (sp.map renderSpinSeg ++ bo.map renderBosonSeg ++
        fe.map renderFermionSeg), Tok.colon ∉ l := by
      intro l hl
      rcases List.mem_append.mp hl with hl | hl
      · rcases List.mem_append.mp hl with hl | hl
        · obtain ⟨q, _, rfl⟩ := List.mem_map.mp hl
          exact colon_not_mem_renderSpinSeg q
        · obtain ⟨q, _, rfl⟩ := List.mem_map.mp hl
          exact colon_not_mem_renderBosonSeg q
      · obtain ⟨q, _, rfl⟩ := List.mem_map.mp hl
        exact colon_not_mem_renderFermionSeg q
    have hne : ∀ l ∈ (sp.map renderSpinSeg ++ bo.map renderBosonSeg ++
        fe.map renderFermionSeg), l ≠ [] := by
      intro l hl
      rcases List.mem_append.mp hl with hl | hl
      · rcases List.mem_append.mp hl with hl | hl
        · obtain ⟨q, _, rfl⟩ := List.mem_map.mp hl
          exact renderSpinSeg_ne_nil q
        · obtain ⟨q, _, rfl⟩ := List.mem_map.mp hl
          exact renderBosonSeg_ne_nil q
      · obtain ⟨q, _, rfl⟩ := List.mem_map.mp hl
        exact renderFermionSeg_ne_nil q
    have hsplit : (renderMixed ⟨sp, bo, fe⟩).splitOn Tok.colon =
        (sp.map renderSpinSeg ++ bo.map renderBosonSeg ++
          fe.map renderFermionSeg) := by
      unfold renderMixed
      exact List.splitOn_intercalate _ Tok.colon hcf hsegs
    have htoks : renderMixed ⟨sp, bo, fe⟩ ≠ [] := by
      intro h
      rw [h] at hsplit
      have : ([] : List Tok) ∈ (sp.map renderSpinSeg ++
          bo.map renderBosonSeg ++ fe.map renderFermionSeg) := by
        rw [← hsplit]
        simp [List.splitOn]
      exact hne [] this rfl
    have hps : parseSections (sp.map renderSpinSeg ++
        bo.map renderBosonSeg ++ fe.map renderFermionSeg) =
        some (sp.map Segment.spin ++
          (bo.map Segment.boson ++ fe.map Segment.fermion)) := by
      rw [List.append_assoc]
      exact parseSections_append (parseSections_map_spin sp)
        (parseSections_append (parseSections_map_boson bo)
          (parseSections_map_fermion fe))
    unfold MixedDecoherenceProduct.from_str
    rw [if_neg htoks, hsplit, hps]
    exact groupSegments_canonical sp bo fe

/-- Round trip for Hermitian mixed products: the canonical text of any
canonical-representative product reparses to it (the canonicity check
re-passes). -/
theorem from_str_render_hermitian (k : HermitianMixedProduct) :
    HermitianMixedProduct.from_str k.render = some k := by
  unfold HermitianMixedProduct.from_str HermitianMixedProduct.render
  rw [from_str_renderMixed]
  simp [k.property]

/-! ## Behaviour of the migration loops -/

/-- A Hamiltonian-loop step on a reparseable key always succeeds (its
insertion `Result` is discarded). -/
theorem hamStep_ok_of_parse (sys : MixedLindbladOpenSystem)
    (kv : List Tok × CalculatorComplex) (k : HermitianMixedProduct)
    (h : HermitianMixedProduct.from_str kv.1 = some k) :
    ∃ s', hamStep sys kv = Except.ok s' := by
  unfold hamStep
  rw [h]
  show ∃ s', (match sys.system.set k kv.2 with
    | Except.ok s => Except.ok { sys with system := s }
    | Except.error _ => Except.ok sys) = Except.ok s'
  cases hset : sys.system.set k kv.2 with
  | ok s => exact ⟨{ sys with system := s }, rfl⟩
  | error e => exact ⟨sys, rfl⟩

/-- A noise-loop step on a reparseable key pair always succeeds. -/
theorem noiseStep_ok_of_parse (sys : MixedLindbladOpenSystem)
    (kv : (List Tok × List Tok) × CalculatorComplex)
    (kl kr : MixedDecoherenceProduct)
    (hl : MixedDecoherenceProduct.from_str kv.1.1 = some kl)
    (hr : MixedDecoherenceProduct.from_str kv.1.2 = some kr) :
    ∃ s', noiseStep sys kv = Except.ok s' := by
  unfold noiseStep
  rw [hl, hr]
  show ∃ s', (match sys.noise.set (kl, kr) kv.2 with
    | Except.ok s => Except.ok { sys with noise := s }
    | Except.error _ => Except.ok sys) = Except.ok s'
  cases hset : sys.noise.set (kl, kr) kv.2 with
  | ok s => exact ⟨{ sys with noise := s }, rfl⟩
  | error e => exact ⟨sys, rfl⟩

/-- If any entry of the foreign Hamiltonian fails to reparse, the Hamiltonian
loop aborts with the key-conversion `PyValueError`, from any start state. -/
theorem hamLoop_error_of_parse_fail
    (l : List (List Tok × CalculatorComplex)) :
    ∀ sys, (∃ kv ∈ l, HermitianMixedProduct.from_str kv.1 = none) →
      hamLoop sys l = Except.error (PyErr.valueError conversionFailedMsg) := by
  induction l with
  | nil =>
    intro sys h
    obtain ⟨kv, hmem, _⟩ := h
    exact absurd hmem (List.not_mem_nil kv)
  | cons kv rest ih =>
    intro sys h
    cases hp : HermitianMixedProduct.from_str kv.1 with
    | none =>
      unfold hamLoop hamStep
      rw [hp]
    | some k =>
      obtain ⟨s', hs'⟩ := hamStep_ok_of_parse sys kv k hp
      unfold hamLoop
      rw [hs']
      obtain ⟨kv', hmem, hfail⟩ := h
      rcases List.mem_cons.mp hmem with rfl | hmem'
      · rw [hp] at hfail
        exact absurd hfail (by simp)
      · exact ih s' ⟨kv', hmem', hfail⟩

/-- If every entry of the foreign Hamiltonian reparses, the Hamiltonian loop
succeeds, from any start state. -/
theorem hamLoop_ok_of_parse_all
    (l : List (List Tok × CalculatorComplex)) :
    ∀ sys, (∀ kv ∈ l, (HermitianMixedProduct.from_str kv.1).isSome) →
      ∃ s', hamLoop sys l = Except.ok s' := by
  induction l with
  | nil => exact fun sys _ => ⟨sys, rfl⟩
  | cons kv rest ih =>
    intro sys h
    have hp := h kv (List.mem_cons_self kv rest)
    obtain ⟨k, hk⟩ := Option.isSome_iff_exists.mp hp
    obtain ⟨s', hs'⟩ := hamStep_ok_of_parse sys kv k hk
    obtain ⟨s'', hs''⟩ :=
      ih s' (fun kv' hm => h kv' (List.mem_cons_of_mem kv hm))
    refine ⟨s'', ?_⟩
    unfold hamLoop
    rw [hs']
    exact hs''

/-- If any half of any entry of the foreign noise container fails to reparse,
the noise loop aborts with the key-conversion `PyValueError`. -/
theorem noiseLoop_error_of_parse_fail
    (l : List ((List Tok × List Tok) × CalculatorComplex)) :
    ∀ sys, (∃ kv ∈ l, MixedDecoherenceProduct.from_str kv.1.1 = none ∨
        MixedDecoherenceProduct.from_str kv.1.2 = none) →
      noiseLoop sys l =
        Except.error (PyErr.valueError conversionFailedMsg) := by
  induction l with
  | nil =>
    intro sys h
    obtain ⟨kv, hmem, _⟩ := h
    exact absurd hmem (List.not_mem_nil kv)
  | cons kv rest ih =>
    intro sys h
    cases hpl : MixedDecoherenceProduct.from_str kv.1.1 with
    | none =>
      unfold noiseLoop noiseStep
      rw [hpl]
    | some kl =>
      cases hpr : MixedDecoherenceProduct.from_str kv.1.2 with
      | none =>
        unfold noiseLoop noiseStep
        rw [hpl, hpr]
      | some kr =>
        obtain ⟨s', hs'⟩ := noiseStep_ok_of_parse sys kv kl kr hpl hpr
        unfold noiseLoop
        rw [hs']
        obtain ⟨kv', hmem, hfail⟩ := h
        rcases List.mem_cons.mp hmem with rfl | hmem'
        · rcases hfail with hfail | hfail
          · rw [hpl] at hfail
            exact absurd hfail (by simp)
          · rw [hpr] at hfail
            exact absurd hfail (by simp)
        · exact ih s' ⟨kv', hmem', hfail⟩

/-- If both halves of every entry of the foreign noise container reparse, the
noise loop succeeds, from any start state. -/
theorem noiseLoop_ok_of_parse_all
    (l : List ((List Tok × List Tok) × CalculatorComplex)) :
    ∀ sys, (∀ kv ∈ l, (MixedDecoherenceProduct.from_str kv.1.1).isSome ∧
        (MixedDecoherenceProduct.from_str kv.1.2).isSome) →
      ∃ s', noiseLoop sys l = Except.ok s' := by
  induction l with
  | nil => exact fun sys _ => ⟨sys, rfl⟩
  | cons kv rest ih =>
    intro sys h
    obtain ⟨hp1, hp2⟩ := h kv (List.mem_cons_self kv rest)
    obtain ⟨kl, hkl⟩ := Option.isSome_iff_exists.mp hp1
    obtain ⟨kr, hkr⟩ := Option.isSome_iff_exists.mp hp2
    obtain ⟨s', hs'⟩ := noiseStep_ok_of_parse sys kv kl kr hkl hkr
    obtain ⟨s'', hs''⟩ :=
      ih s' (fun kv' hm => h kv' (List.mem_cons_of_mem kv hm))
    refine ⟨s'', ?_⟩
    unfold noiseLoop
    rw [hs']
    exact hs''

/-- The Hamiltonian loop's only error is the key-conversion error. -/
theorem hamStep_error_msg (sys : MixedLindbladOpenSystem)
    (kv : List Tok × CalculatorComplex) (e : PyErr)
    (h : hamStep sys kv = Except.error e) :
    e = PyErr.valueError conversionFailedMsg := by
  unfold hamStep at h
  cases hp : HermitianMixedProduct.from_str kv.1 with
  | none =>
    rw [hp] at h
    simp only [Except.error.injEq] at h
    exact h.symm
  | some k =>
    obtain ⟨s', hs'⟩ := hamStep_ok_of_parse sys kv k hp
    unfold hamStep at hs'
    rw [hs'] at h
    simp at h

theorem noiseStep_error_msg (sys : MixedLindbladOpenSystem)
    (kv : (List Tok × List Tok) × CalculatorComplex) (e : PyErr)
    (h : noiseStep sys kv = Except.error e) :
    e = PyErr.valueError conversionFailedMsg := by
  unfold noiseStep at h
  cases hpl : MixedDecoherenceProduct.from_str kv.1.1 with
  | none =>
    rw [hpl] at h
    simp only [Except.error.injEq] at h
    exact h.symm
  | some kl =>
    cases hpr : MixedDecoherenceProduct.from_str kv.1.2 with
    | none =>
      rw [hpl, hpr] at h
      simp only [Except.error.injEq] at h
      exact h.symm
    | some kr =>
      obtain ⟨s', hs'⟩ := noiseStep_ok_of_parse sys kv kl kr hpl hpr
      unfold noiseStep at hs'
      rw [hs'] at h
      simp at h

theorem hamLoop_error_msg (l : List (List Tok × CalculatorComplex)) :
    ∀ sys e, hamLoop sys l = Except.error e →
      e = PyErr.valueError conversionFailedMsg := by
  induction l with
  | nil =>
    intro sys e h
    simp [hamLoop] at h
  | cons kv rest ih =>
    intro sys e h
    unfold hamLoop at h
    cases hstep : hamStep sys kv with
    | ok s => rw [hstep] at h; exact ih s e h
    | error e' =>
      rw [hstep] at h
      simp only [Except.error.injEq] at h
      rw [← h]
      exact hamStep_error_msg sys kv e' hstep

theorem noiseLoop_error_msg
    (l : List ((List Tok × List Tok) × CalculatorComplex)) :
    ∀ sys e, noiseLoop sys l = Except.error e →
      e = PyErr.valueError conversionFailedMsg := by
  induction l with
  | nil =>
    intro sys e h
    simp [noiseLoop] at h
  | cons kv rest ih =>
    intro sys e h
    unfold noiseLoop at h
    cases hstep : noiseStep sys kv with
    | ok s => rw [hstep] at h; exact ih s e h
    | error e' =>
      rw [hstep] at h
      simp only [Except.error.injEq] at h
      rw [← h]
      exact noiseStep_error_msg sys kv e' hstep

/-! ## Count-vector preservation through the loops -/

/-- Agreement of all six configured count vectors of two open systems. -/
def countsEq (x y : MixedLindbladOpenSystem) : Prop :=
  x.system.number_spins = y.system.number_spins ∧
  x.system.number_bosons = y.system.number_bosons ∧
  x.system.number_fermions = y.system.number_fermions ∧
  x.noise.number_spins = y.noise.number_spins ∧
  x.noise.number_bosons = y.noise.number_bosons ∧
  x.noise.number_fermions = y.noise.number_fermions

theorem countsEq_refl (x : MixedLindbladOpenSystem) : countsEq x x :=
  ⟨rfl, rfl, rfl, rfl, rfl, rfl⟩

theorem countsEq_trans {x y z : MixedLindbladOpenSystem}
    (h1 : countsEq x y) (h2 : countsEq y z) : countsEq x z := by
  obtain ⟨a1, a2, a3, a4, a5, a6⟩ := h1
  obtain ⟨b1, b2, b3, b4, b5, b6⟩ := h2
  exact ⟨a1.trans b1, a2.trans b2, a3.trans b3, a4.trans b4, a5.trans b5,
    a6.trans b6⟩

/-- `set` on the Hamiltonian container never changes the configured count
vectors. -/
theorem hamSet_preserves (sys : MixedHamiltonianSystem)
    (k : HermitianMixedProduct) (v : CalculatorComplex)
    (s : MixedHamiltonianSystem) (h : sys.set k v = Except.ok s) :
    s.number_spins = sys.number_spins ∧
    s.number_bosons = sys.number_bosons ∧
    s.number_fermions = sys.number_fermions := by
  unfold MixedHamiltonianSystem.set at h
  split at h
  · simp only [Except.ok.injEq] at h
    subst h
    exact ⟨rfl, rfl, rfl⟩
  · simp at h

theorem noiseSet_preserves (sys : MixedLindbladNoiseSystem)
    (k : MixedDecoherenceProduct × MixedDecoherenceProduct)
    (v : CalculatorComplex) (s : MixedLindbladNoiseSystem)
    (h : sys.set k v = Except.ok s) :
    s.number_spins = sys.number_spins ∧
    s.number_bosons = sys.number_bosons ∧
    s.number_fermions = sys.number_fermions := by
  unfold MixedLindbladNoiseSystem.set at h
  split at h
  · simp only [Except.ok.injEq] at h
    subst h
    exact ⟨rfl, rfl, rfl⟩
  · simp at h

theorem hamStep_counts (sys : MixedLindbladOpenSystem)
    (kv : List Tok × CalculatorComplex) (s' : MixedLindbladOpenSystem)
    (h : hamStep sys kv = Except.ok s') : countsEq s' sys := by
  unfold hamStep at h
  split at h
  · simp at h
  · rename_i k _
    split at h
    · rename_i s hset
      simp only [Except.ok.injEq] at h
      subst h
      obtain ⟨h1, h2, h3⟩ := hamSet_preserves sys.system k kv.2 s hset
      exact ⟨h1, h2, h3, rfl, rfl, rfl⟩
    · simp only [Except.ok.injEq] at h
      subst h
      exact countsEq_refl sys

theorem noiseStep_counts (sys : MixedLindbladOpenSystem)
    (kv : (List Tok × List Tok) × CalculatorComplex)
    (s' : MixedLindbladOpenSystem) (h : noiseStep sys kv = Except.ok s') :
    countsEq s' sys := by
  unfold noiseStep at h
  split at h
  · simp at h
  · rename_i kl _
    split at h
    · simp at h
    · rename_i kr _
      split at h
      · rename_i s hset
        simp only [Except.ok.injEq] at h
        subst h
        obtain ⟨h1, h2, h3⟩ := noiseSet_preserves sys.noise (kl, kr) kv.2 s hset
        exact ⟨rfl, rfl, rfl, h1, h2, h3⟩
      · simp only [Except.ok.injEq] at h
        subst h
        exact countsEq_refl sys

theorem hamLoop_counts (l : List (List Tok × CalculatorComplex)) :
    ∀ sys s', hamLoop sys l = Except.ok s' → countsEq s' sys := by
  induction l with
  | nil =>
    intro sys s' h
    simp only [hamLoop, Except.ok.injEq] at h
    subst h
    exact countsEq_refl sys
  | cons kv rest ih =>
    intro sys s' h
    unfold hamLoop at h
    cases hstep : hamStep sys kv with
    | ok s =>
      rw [hstep] at h
      exact countsEq_trans (ih s s' h) (hamStep_counts sys kv s hstep)
    | error e => rw [hstep] at h; simp at h

theorem noiseLoop_counts
    (l : List ((List Tok × List Tok) × CalculatorComplex)) :
    ∀ sys s', noiseLoop sys l = Except.ok s' → countsEq s' sys := by
  induction l with
  | nil =>
    intro sys s' h
    simp only [noiseLoop, Except.ok.injEq] at h
    subst h
    exact countsEq_refl sys
  | cons kv rest ih =>
    intro sys s' h
    unfold noiseLoop at h
    cases hstep : noiseStep sys kv with
    | ok s =>
      rw [hstep] at h
      exact countsEq_trans (ih s s' h) (noiseStep_counts sys kv s hstep)
    | error e => rw [hstep] at h; simp at h

/-! ## Reduction of `from_struqture_two` past a successful decode -/

/-- The fresh destination skeleton the Rebuild phase creates for a decoded
foreign system: three all-`None` count vectors sized by the lengths of the
foreign `current_number_*` vectors, both containers empty. -/
def migInit (two : TwoMixedLindbladOpenSystem) : MixedLindbladOpenSystem :=
  MixedLindbladOpenSystem.new
    (List.replicate two.current_number_spins.length none)
    (List.replicate two.current_number_bosonic_modes.length none)
    (List.replicate two.current_number_fermionic_modes.length none)

/-- After metadata, version gate and decode all succeed, the migration is
exactly the two rebuild loops run from the fresh skeleton. -/
theorem from_struqture_two_decode (m : StruqtureSerialisationMeta)
    (two : TwoMixedLindbladOpenSystem)
    (hcheck : check_can_be_deserialised target_serialisation_meta m =
      Except.ok ()) :
    from_struqture_two ⟨MetaResult.ok m, BytesResult.ok (ByteBuf.encodes two)⟩ =
      (match hamLoop (migInit two) two.systemEntries with
       | Except.error e => Except.error e
       | Except.ok after_ham =>
         match noiseLoop after_ham two.noiseEntries with
         | Except.error e => Except.error e
         | Except.ok after_noise => Except.ok ⟨after_noise⟩) := by
  simp only [from_struqture_two]
  rw [hcheck]
  rfl

/-- A Hamiltonian step whose key reparses and fits the container's arity
performs the overwrite-insertion. -/
theorem hamStep_set_ok (sys : MixedLindbladOpenSystem)
    (kv : List Tok × CalculatorComplex) (k : HermitianMixedProduct)
    (hp : HermitianMixedProduct.from_str kv.1 = some k)
    (ha : arityOk sys.system.number_spins sys.system.number_bosons
      sys.system.number_fermions k.val = true) :
    hamStep sys kv = Except.ok
      { sys with system :=
        { sys.system with internal := assocSet sys.system.internal k kv.2 } } := by
  unfold hamStep
  rw [hp]
  show (match sys.system.set k kv.2 with
    | Except.ok s => Except.ok { sys with system := s }
    | Except.error _ => Except.ok sys) = _
  unfold MixedHamiltonianSystem.set
  rw [if_pos ha]

/-- A noise step whose key pair reparses and fits the container's arity
performs the overwrite-insertion. -/
theorem noiseStep_set_ok (sys : MixedLindbladOpenSystem)
    (kv : (List Tok × List Tok) × CalculatorComplex)
    (kl kr : MixedDecoherenceProduct)
    (hpl : MixedDecoherenceProduct.from_str kv.1.1 = some kl)
    (hpr : MixedDecoherenceProduct.from_str kv.1.2 = some kr)
    (ha : (arityOk sys.noise.number_spins sys.noise.number_bosons
        sys.noise.number_fermions kl &&
      arityOk sys.noise.number_spins sys.noise.number_bosons
        sys.noise.number_fermions kr) = true) :
    noiseStep sys kv = Except.ok
      { sys with noise :=
        { sys.noise with
          internal := assocSet sys.noise.internal (kl, kr) kv.2 } } := by
  unfold noiseStep
  rw [hpl, hpr]
  show (match sys.noise.set (kl, kr) kv.2 with
    | Except.ok s => Except.ok { sys with noise := s }
    | Except.error _ => Except.ok sys) = _
  unfold MixedLindbladNoiseSystem.set
  rw [if_pos ha]

/-- A successful step prefixes the loop: the loop continues from the new
state. -/
theorem hamLoop_cons_ok {sys s' : MixedLindbladOpenSystem}
    {kv : List Tok × CalculatorComplex}
    (h : hamStep sys kv = Except.ok s')
    (rest : List (List Tok × CalculatorComplex)) :
    hamLoop sys (kv :: rest) = hamLoop s' rest := by
  show (match hamStep sys kv with
    | Except.ok s => hamLoop s rest
    | Except.error e => Except.error e) = hamLoop s' rest
  rw [h]

theorem noiseLoop_cons_ok {sys s' : MixedLindbladOpenSystem}
    {kv : (List Tok × List Tok) × CalculatorComplex}
    (h : noiseStep sys kv = Except.ok s')
    (rest : List ((List Tok × List Tok) × CalculatorComplex)) :
    noiseLoop sys (kv :: rest) = noiseLoop s' rest := by
  show (match noiseStep sys kv with
    | Except.ok s => noiseLoop s rest
    | Except.error e => Except.error e) = noiseLoop s' rest
  rw [h]

/-- Running the Hamiltonian loop over two entries carrying the same key text
performs two overwrite-insertions of the same reparsed key: the second
replaces the first. -/
theorem hamLoop_two_dups (sys : MixedLindbladOpenSystem) (t : List Tok)
    (v1 v2 : CalculatorComplex) (k : HermitianMixedProduct)
    (hp : HermitianMixedProduct.from_str t = some k)
    (ha : arityOk sys.system.number_spins sys.system.number_bosons
      sys.system.number_fermions k.val = true) :
    hamLoop sys [(t, v1), (t, v2)] = Except.ok
      { sys with system := { sys.system with
          internal := assocSet (assocSet sys.system.internal k v1) k v2 } } := by
  have hstep1 := hamStep_set_ok sys (t, v1) k hp ha
  have hstep2 := hamStep_set_ok
    { sys with system := { sys.system with
        internal := assocSet sys.system.internal k (t, v1).2 } }
    (t, v2) k hp ha
  rw [hamLoop_cons_ok hstep1, hamLoop_cons_ok hstep2]
  rfl

/-- Running the noise loop over two entries carrying the same key-pair text
performs two overwrite-insertions of the same reparsed pair: the second
replaces the first. -/
theorem noiseLoop_two_dups (sys : MixedLindbladOpenSystem) (r : List Tok)
    (u1 u2 : CalculatorComplex) (dp : MixedDecoherenceProduct)
    (hp : MixedDecoherenceProduct.from_str r = some dp)
    (ha : (arityOk sys.noise.number_spins sys.noise.number_bosons
        sys.noise.number_fermions dp &&
      arityOk sys.noise.number_spins sys.noise.number_bosons
        sys.noise.number_fermions dp) = true) :
    noiseLoop sys [((r, r), u1), ((r, r), u2)] = Except.ok
      { sys with noise := { sys.noise with
          internal := assocSet (assocSet sys.noise.internal (dp, dp) u1)
            (dp, dp) u2 } } := by
  have hstep1 := noiseStep_set_ok sys ((r, r), u1) dp dp hp hp ha
  have hstep2 := noiseStep_set_ok
    { sys with noise := { sys.noise with
        internal := assocSet sys.noise.internal (dp, dp) ((r, r), u1).2 } }
    ((r, r), u2) dp dp hp hp ha
  rw [noiseLoop_cons_ok hstep1, noiseLoop_cons_ok hstep2]
  rfl

/-- The version gate passes when the type names agree and the source's
minimum-supported version is not newer than the reader's. -/
theorem check_ok_of (m : StruqtureSerialisationMeta)
    (hname : m.type_name = target_serialisation_meta.type_name)
    (hver : versionLe m.min_version target_serialisation_meta.version =
      true) :
    check_can_be_deserialised target_serialisation_meta m = Except.ok () := by
  unfold check_can_be_deserialised
  rw [if_neg (by simp [hname]), if_pos hver]

/-! ## Claim theorems -/

/-- **C1**: if any single foreign key fails to reparse under the current
grammar (a Hamiltonian key, or either half of a noise key pair), the
migration returns the key-conversion error — no destination open system is
returned at all, so there is no partially populated result. -/
theorem c1_reparse_failure_aborts_migration (m : StruqtureSerialisationMeta)
    (two : TwoMixedLindbladOpenSystem)
    (hcheck : check_can_be_deserialised target_serialisation_meta m =
      Except.ok ())
    (hfail : (∃ kv ∈ two.systemEntries,
        HermitianMixedProduct.from_str kv.1 = none) ∨
      (∃ kv ∈ two.noiseEntries,
        MixedDecoherenceProduct.from_str kv.1.1 = none ∨
          MixedDecoherenceProduct.from_str kv.1.2 = none)) :
    from_struqture_two
        ⟨MetaResult.ok m, BytesResult.ok (ByteBuf.encodes two)⟩ =
      Except.error (PyErr.valueError conversionFailedMsg) := by
  rw [from_struqture_two_decode m two hcheck]
  rcases hfail with hfail | hfail
  · rw [hamLoop_error_of_parse_fail two.systemEntries (migInit two) hfail]
  · cases hham : hamLoop (migInit two) two.systemEntries with
    | error e =>
      rw [hamLoop_error_msg two.systemEntries (migInit two) e hham]
    | ok after_ham =>
      show (match noiseLoop after_ham two.noiseEntries with
        | Except.error e => Except.error e
        | Except.ok after_noise =>
          Except.ok (⟨after_noise⟩ : MixedLindbladOpenSystemWrapper)) = _
      rw [noiseLoop_error_of_parse_fail two.noiseEntries after_ham hfail]

/-- Witness for C1: a concrete foreign system with one unparseable
Hamiltonian key aborts the migration with the key-conversion error. -/
theorem c1_witness :
    from_struqture_two
        ⟨MetaResult.ok ⟨"MixedLindbladOpenSystem", ⟨2, 0, 0⟩, ⟨1, 0, 0⟩⟩,
          BytesResult.ok (ByteBuf.encodes
            ⟨[1], [], [], [([Tok.colon], ⟨1, 0⟩)], []⟩)⟩ =
      Except.error (PyErr.valueError conversionFailedMsg) :=
  c1_reparse_failure_aborts_migration _ _
    (check_ok_of _ (by decide) (by decide))
    (Or.inl ⟨([Tok.colon], ⟨1, 0⟩), by decide, by decide⟩)

/-- **C2**: a metadata descriptor whose minimum-supported version is newer
than the current reader's own version makes the migration fail with the
incompatible-version error, for every byte buffer alike — so before any
decode or destination construction, and mutating nothing. -/
theorem c2_version_gate (m : StruqtureSerialisationMeta) (b : BytesResult)
    (hname : m.type_name = target_serialisation_meta.type_name)
    (hver : versionLe m.min_version target_serialisation_meta.version =
      false) :
    from_struqture_two ⟨MetaResult.ok m, b⟩ =
      Except.error
        (PyErr.typeError StruqtureTwoError.IncompatibleVersion.toMessage) := by
  have hcheck : check_can_be_deserialised target_serialisation_meta m =
      Except.error StruqtureTwoError.IncompatibleVersion := by
    unfold check_can_be_deserialised
    rw [if_neg (by simp [hname]), if_neg (by simp [hver])]
  simp only [from_struqture_two]
  rw [hcheck]

/-- Witness for C2: a source declaring minimum-supported version 3.0.0
against the 2.0.0 reader is rejected whatever the byte buffer holds. -/
theorem c2_witness :
    from_struqture_two
        ⟨MetaResult.ok ⟨"MixedLindbladOpenSystem", ⟨3, 0, 0⟩, ⟨3, 0, 0⟩⟩,
          BytesResult.methodMissing⟩ =
      Except.error
        (PyErr.typeError StruqtureTwoError.IncompatibleVersion.toMessage) :=
  c2_version_gate _ _ (by decide) (by decide)

/-- **C8**: when the serialisation metadata cannot be obtained or parsed
(method absent, non-string result, or invalid metadata JSON), the migration
fails with the not-a-supported-object error and returns no destination. -/
theorem c8_meta_failure (mr : MetaResult) (br : BytesResult)
    (h : mr = MetaResult.methodMissing ∨ mr = MetaResult.notAString ∨
      mr = MetaResult.invalidJson) :
    from_struqture_two ⟨mr, br⟩ =
      Except.error (PyErr.typeError notStruqtureObjMsg) := by
  rcases h with rfl | rfl | rfl <;> rfl

/-- Witness for C8: an object without the metadata method is rejected. -/
theorem c8_witness :
    from_struqture_two ⟨MetaResult.methodMissing, BytesResult.notBytes⟩ =
      Except.error (PyErr.typeError notStruqtureObjMsg) :=
  c8_meta_failure _ _ (Or.inl rfl)

/-- **C9**: a byte buffer whose layout does not match the foreign versioned
encoding makes the Decode phase fail; the failure is terminal — the migration
returns the deserialization error and no destination. -/
theorem c9_decode_failure (m : StruqtureSerialisationMeta)
    (hcheck : check_can_be_deserialised target_serialisation_meta m =
      Except.ok ()) :
    from_struqture_two ⟨MetaResult.ok m, BytesResult.ok ByteBuf.corrupt⟩ =
      Except.error
        (PyErr.typeError ("Type conversion failed: " ++
          "invalid byte layout")) := by
  simp only [from_struqture_two]
  rw [hcheck]
  rfl

/-- Witness for C9: a corrupt buffer behind valid metadata is rejected. -/
theorem c9_witness :
    from_struqture_two
        ⟨MetaResult.ok ⟨"MixedLindbladOpenSystem", ⟨2, 0, 0⟩, ⟨1, 0, 0⟩⟩,
          BytesResult.ok ByteBuf.corrupt⟩ =
      Except.error
        (PyErr.typeError ("Type conversion failed: " ++
          "invalid byte layout")) :=
  c9_decode_failure _ (check_ok_of _ (by decide) (by decide))

/-- **C10**: the constructor called with no arguments (the pyo3 defaults)
yields an open system whose three count vectors are each a single unresolved
slot `[None]` — for the Hamiltonian and the noise container alike — with both
containers empty. -/
theorem c10_default_constructor :
    MixedLindbladOpenSystemWrapper.newDefault.internal.system.number_spins =
        [none] ∧
    MixedLindbladOpenSystemWrapper.newDefault.internal.system.number_bosons =
        [none] ∧
    MixedLindbladOpenSystemWrapper.newDefault.internal.system.number_fermions =
        [none] ∧
    MixedLindbladOpenSystemWrapper.newDefault.internal.noise.number_spins =
        [none] ∧
    MixedLindbladOpenSystemWrapper.newDefault.internal.noise.number_bosons =
        [none] ∧
    MixedLindbladOpenSystemWrapper.newDefault.internal.noise.number_fermions =
        [none] ∧
    MixedLindbladOpenSystemWrapper.newDefault.internal.system.internal = [] ∧
    MixedLindbladOpenSystemWrapper.newDefault.internal.noise.internal = [] :=
  ⟨rfl, rfl, rfl, rfl, rfl, rfl, rfl, rfl⟩

/-- **C4**: for every successfully decoded foreign open system, the rebuilt
destination's six count vectors (Hamiltonian and noise container, three
species each) are exactly the all-`None` vectors sized by the lengths of the
foreign system's observed per-species width vectors. -/
theorem c4_fresh_count_vectors (mr : MetaResult)
    (two : TwoMixedLindbladOpenSystem) (w : MixedLindbladOpenSystemWrapper)
    (hok : from_struqture_two ⟨mr, BytesResult.ok (ByteBuf.encodes two)⟩ =
      Except.ok w) :
    w.internal.system.number_spins =
        List.replicate two.current_number_spins.length none ∧
    w.internal.system.number_bosons =
        List.replicate two.current_number_bosonic_modes.length none ∧
    w.internal.system.number_fermions =
        List.replicate two.current_number_fermionic_modes.length none ∧
    w.internal.noise.number_spins =
        List.replicate two.current_number_spins.length none ∧
    w.internal.noise.number_bosons =
        List.replicate two.current_number_bosonic_modes.length none ∧
    w.internal.noise.number_fermions =
        List.replicate two.current_number_fermionic_modes.length none := by
  cases mr with
  | methodMissing => exact Except.noConfusion hok
  | notAString => exact Except.noConfusion hok
  | invalidJson => exact Except.noConfusion hok
  | ok m =>
    cases hcheck : check_can_be_deserialised target_serialisation_meta m with
    | error e =>
      have hred : from_struqture_two
          ⟨MetaResult.ok m, BytesResult.ok (ByteBuf.encodes two)⟩ =
          Except.error (PyErr.typeError e.toMessage) := by
        simp only [from_struqture_two]
        rw [hcheck]
      rw [hred] at hok
      exact Except.noConfusion hok
    | ok u =>
      cases u
      rw [from_struqture_two_decode m two hcheck] at hok
      cases hham : hamLoop (migInit two) two.systemEntries with
      | error e =>
        rw [hham] at hok
        simp at hok
      | ok after_ham =>
        rw [hham] at hok
        have hok2 : (match noiseLoop after_ham two.noiseEntries with
          | Except.error e => Except.error e
          | Except.ok after_noise =>
            Except.ok (⟨after_noise⟩ : MixedLindbladOpenSystemWrapper)) =
            Except.ok w := hok
        cases hnoise : noiseLoop after_ham two.noiseEntries with
        | error e =>
          rw [hnoise] at hok2
          simp at hok2
        | ok after_noise =>
          rw [hnoise] at hok2
          simp only [Except.ok.injEq] at hok2
          subst hok2
          have hc := countsEq_trans
            (noiseLoop_counts two.noiseEntries after_ham after_noise hnoise)
            (hamLoop_counts two.systemEntries (migInit two) after_ham hham)
          obtain ⟨h1, h2, h3, h4, h5, h6⟩ := hc
          exact ⟨h1, h2, h3, h4, h5, h6⟩

/-- Witness for C4: a foreign system with width vectors of lengths 1, 2 and 3
and no entries rebuilds onto count vectors `[None]`, `[None, None]`,
`[None, None, None]`. -/
theorem c4_witness :
    (⟨migInit ⟨[1], [2, 2], [3, 3, 3], [], []⟩⟩ :
        MixedLindbladOpenSystemWrapper).internal.system.number_spins =
      List.replicate 1 (none : Option Nat) ∧
    (⟨migInit ⟨[1], [2, 2], [3, 3, 3], [], []⟩⟩ :
        MixedLindbladOpenSystemWrapper).internal.system.number_bosons =
      List.replicate 2 (none : Option Nat) ∧
    (⟨migInit ⟨[1], [2, 2], [3, 3, 3], [], []⟩⟩ :
        MixedLindbladOpenSystemWrapper).internal.system.number_fermions =
      List.replicate 3 (none : Option Nat) ∧
    (⟨migInit ⟨[1], [2, 2], [3, 3, 3], [], []⟩⟩ :
        MixedLindbladOpenSystemWrapper).internal.noise.number_spins =
      List.replicate 1 (none : Option Nat) ∧
    (⟨migInit ⟨[1], [2, 2], [3, 3, 3], [], []⟩⟩ :
        MixedLindbladOpenSystemWrapper).internal.noise.number_bosons =
      List.replicate 2 (none : Option Nat) ∧
    (⟨migInit ⟨[1], [2, 2], [3, 3, 3], [], []⟩⟩ :
        MixedLindbladOpenSystemWrapper).internal.noise.number_fermions =
      List.replicate 3 (none : Option Nat) :=
  c4_fresh_count_vectors
    (MetaResult.ok ⟨"MixedLindbladOpenSystem", ⟨2, 0, 0⟩, ⟨1, 0, 0⟩⟩)
    ⟨[1], [2, 2], [3, 3, 3], [], []⟩ _ (by rfl)

/-- The concrete Hermitian key of the C3 counterexample: one spin subsystem,
no boson or fermion subsystems. -/
def cexKey : HermitianMixedProduct :=
  ⟨⟨[⟨[(0, SpinOp.Z)]⟩], [], []⟩, by decide⟩

/-- The C3 counterexample's foreign system: zero subsystems of every species
observed, but one Hamiltonian entry whose key has one spin subsystem — its
insertion into the (zero-arity) destination container must fail. -/
def cexTwo : TwoMixedLindbladOpenSystem :=
  ⟨[], [], [], [(renderMixed cexKey.val, ⟨1, 0⟩)], []⟩

/-- The C3 counterexample's full migration input. -/
def cexInput : PyInput :=
  ⟨MetaResult.ok ⟨"MixedLindbladOpenSystem", ⟨2, 0, 0⟩, ⟨1, 0, 0⟩⟩,
    BytesResult.ok (ByteBuf.encodes cexTwo)⟩

/-- **C3 counterexample**: the foreign key reparses fine, its insertion into
the destination Hamiltonian container fails with the dimension-mismatch
error, and yet the migration returns a destination (with the entry silently
dropped) instead of surfacing the insertion error. -/
theorem c3_counterexample :
    HermitianMixedProduct.from_str (renderMixed cexKey.val) = some cexKey ∧
    (migInit cexTwo).system.set cexKey ⟨1, 0⟩ =
      Except.error StruqtureError.MismatchedNumberSubsystems ∧
    from_struqture_two cexInput = Except.ok ⟨migInit cexTwo⟩ :=
  ⟨by decide, by rfl, by rfl⟩

/-- **C3 amended**: insertion failures during Rebuild are silently discarded
(`let _ = ...set(...)`): whenever the metadata, version gate, decode and all
key reparses succeed, the migration returns a destination open system even if
some insertions failed — a failed insertion merely leaves its entry out. -/
theorem c3_amended_insertion_errors_ignored (m : StruqtureSerialisationMeta)
    (two : TwoMixedLindbladOpenSystem)
    (hcheck : check_can_be_deserialised target_serialisation_meta m =
      Except.ok ())
    (hham : ∀ kv ∈ two.systemEntries,
      (HermitianMixedProduct.from_str kv.1).isSome)
    (hnoise : ∀ kv ∈ two.noiseEntries,
      (MixedDecoherenceProduct.from_str kv.1.1).isSome ∧
        (MixedDecoherenceProduct.from_str kv.1.2).isSome) :
    ∃ w, from_struqture_two
      ⟨MetaResult.ok m, BytesResult.ok (ByteBuf.encodes two)⟩ =
        Except.ok w := by
  rw [from_struqture_two_decode m two hcheck]
  obtain ⟨s1, h1⟩ := hamLoop_ok_of_parse_all two.systemEntries (migInit two)
    hham
  obtain ⟨s2, h2⟩ := noiseLoop_ok_of_parse_all two.noiseEntries s1 hnoise
  refine ⟨⟨s2⟩, ?_⟩
  rw [h1]
  show (match noiseLoop s1 two.noiseEntries with
    | Except.error e => Except.error e
    | Except.ok after_noise =>
      Except.ok (⟨after_noise⟩ : MixedLindbladOpenSystemWrapper)) = _
  rw [h2]

/-- Witness for the amended C3, at the very input of the counterexample: all
keys reparse, the single insertion fails, and migration still succeeds. -/
theorem c3_amended_witness :
    ∃ w, from_struqture_two cexInput = Except.ok w :=
  c3_amended_insertion_errors_ignored _ cexTwo
    (check_ok_of _ (by decide) (by decide)) (by decide) (by decide)

/-- **C5**: migration inserts every reparsed (key, value) pair and every
reparsed (key-pair, value) pair with overwrite (`set`) semantics, not
additive accumulation: a foreign iteration yielding the same reparsed
Hamiltonian key twice, and the same reparsed noise key pair twice, leaves
each destination container holding exactly the last value in a single entry,
not the sum. -/
theorem c5_overwrite_semantics (m : StruqtureSerialisationMeta)
    (two : TwoMixedLindbladOpenSystem) (t r : List Tok)
    (v1 v2 u1 u2 : CalculatorComplex) (k : HermitianMixedProduct)
    (dp : MixedDecoherenceProduct)
    (hcheck : check_can_be_deserialised target_serialisation_meta m =
      Except.ok ())
    (hkp : HermitianMixedProduct.from_str t = some k)
    (hdp : MixedDecoherenceProduct.from_str r = some dp)
    (hham : two.systemEntries = [(t, v1), (t, v2)])
    (hnoise : two.noiseEntries = [((r, r), u1), ((r, r), u2)])
    (harity1 : arityOk (List.replicate two.current_number_spins.length none)
      (List.replicate two.current_number_bosonic_modes.length none)
      (List.replicate two.current_number_fermionic_modes.length none)
      k.val = true)
    (harity2 : arityOk (List.replicate two.current_number_spins.length none)
      (List.replicate two.current_number_bosonic_modes.length none)
      (List.replicate two.current_number_fermionic_modes.length none)
      dp = true) :
    ∃ w, from_struqture_two
        ⟨MetaResult.ok m, BytesResult.ok (ByteBuf.encodes two)⟩ =
          Except.ok w ∧
      w.internal.system.internal = [(k, v2)] ∧
      w.internal.system.get k = v2 ∧
      w.internal.noise.internal = [((dp, dp), u2)] ∧
      w.internal.noise.get (dp, dp) = u2 := by
  have hhamrun := hamLoop_two_dups (migInit two) t v1 v2 k hkp harity1
  have hnoiserun := noiseLoop_two_dups
    { migInit two with system := { (migInit two).system with
        internal := assocSet (assocSet (migInit two).system.internal k v1)
          k v2 } }
    r u1 u2 dp hdp (by simp [migInit, MixedLindbladOpenSystem.new, harity2])
  refine ⟨⟨{ migInit two with
      system := { (migInit two).system with
        internal := assocSet (assocSet (migInit two).system.internal k v1)
          k v2 },
      noise := { (migInit two).noise with
        internal := assocSet (assocSet (migInit two).noise.internal (dp, dp)
          u1) (dp, dp) u2 } }⟩, ?_, ?_, ?_, ?_, ?_⟩
  · rw [from_struqture_two_decode m two hcheck, hham, hnoise, hhamrun]
    show (match noiseLoop
        { migInit two with system := { (migInit two).system with
            internal := assocSet (assocSet (migInit two).system.internal k v1)
              k v2 } }
        [((r, r), u1), ((r, r), u2)] with
      | Except.error e => Except.error e
      | Except.ok after_noise =>
        Except.ok (⟨after_noise⟩ : MixedLindbladOpenSystemWrapper)) = _
    rw [hnoiserun]
  · simp [migInit, MixedLindbladOpenSystem.new, assocSet]
  · simp [migInit, MixedLindbladOpenSystem.new, assocSet,
      MixedHamiltonianSystem.get, List.lookup]
  · simp [migInit, MixedLindbladOpenSystem.new, assocSet]
  · simp [migInit, MixedLindbladOpenSystem.new, assocSet,
      MixedLindbladNoiseSystem.get, List.lookup]

/-- A concrete valid mixed product: spin Z on qubit 0, boson creator 0 and
annihilator 1, fermion creator 0 and annihilator 0. -/
def sampleProduct : MixedDecoherenceProduct :=
  ⟨[⟨[(0, SpinOp.Z)]⟩], [⟨[0], [1]⟩], [⟨[0], [0]⟩]⟩

/-- `sampleProduct` as a (canonical) Hermitian key. -/
def sampleKey : HermitianMixedProduct := ⟨sampleProduct, by decide⟩

/-- The C5 witness's foreign system: the same Hamiltonian key text twice with
values 1 then 2, and the same noise key-pair text twice with values 3 then
4. -/
def c5two : TwoMixedLindbladOpenSystem :=
  ⟨[1], [2], [1],
    [(renderMixed sampleProduct, ⟨1, 0⟩), (renderMixed sampleProduct, ⟨2, 0⟩)],
    [((renderMixed sampleProduct, renderMixed sampleProduct), ⟨3, 0⟩),
     ((renderMixed sampleProduct, renderMixed sampleProduct), ⟨4, 0⟩)]⟩

/-- Witness for C5: after migrating the duplicate-key foreign system, the
destination Hamiltonian holds one entry with the last value 2 (not 3) and the
destination noise container holds one entry with the last value 4 (not 7). -/
theorem c5_witness :
    ∃ w, from_struqture_two
        ⟨MetaResult.ok ⟨"MixedLindbladOpenSystem", ⟨2, 0, 0⟩, ⟨1, 0, 0⟩⟩,
          BytesResult.ok (ByteBuf.encodes c5two)⟩ = Except.ok w ∧
      w.internal.system.internal = [(sampleKey, ⟨2, 0⟩)] ∧
      w.internal.system.get sampleKey = ⟨2, 0⟩ ∧
      w.internal.noise.internal =
        [((sampleProduct, sampleProduct), ⟨4, 0⟩)] ∧
      w.internal.noise.get (sampleProduct, sampleProduct) = ⟨4, 0⟩ :=
  c5_overwrite_semantics _ c5two (renderMixed sampleProduct)
    (renderMixed sampleProduct) ⟨1, 0⟩ ⟨2, 0⟩ ⟨3, 0⟩ ⟨4, 0⟩ sampleKey
    sampleProduct (check_ok_of _ (by decide) (by decide)) (by decide)
    (by decide) rfl rfl (by decide) (by decide)

/-- **C7**: a foreign noise container holding exactly one entry keyed by the
pair `(dp, dp)` with coefficient 2 migrates to a destination whose noise
container returns 2 at the reparsed current-format pair `(dp, dp)` and holds
exactly one entry. -/
theorem c7_noise_pair_scenario (m : StruqtureSerialisationMeta)
    (two : TwoMixedLindbladOpenSystem) (t : List Tok)
    (dp : MixedDecoherenceProduct)
    (hcheck : check_can_be_deserialised target_serialisation_meta m =
      Except.ok ())
    (hparse : MixedDecoherenceProduct.from_str t = some dp)
    (hham : two.systemEntries = [])
    (hnoise : two.noiseEntries = [((t, t), ⟨2, 0⟩)])
    (harity : arityOk (List.replicate two.current_number_spins.length none)
      (List.replicate two.current_number_bosonic_modes.length none)
      (List.replicate two.current_number_fermionic_modes.length none)
      dp = true) :
    ∃ w, from_struqture_two
        ⟨MetaResult.ok m, BytesResult.ok (ByteBuf.encodes two)⟩ =
          Except.ok w ∧
      w.internal.noise.get (dp, dp) = ⟨2, 0⟩ ∧
      w.internal.noise.internal.length = 1 := by
  have hstep := noiseStep_set_ok (migInit two) ((t, t), ⟨2, 0⟩) dp dp hparse
    hparse (by simp [migInit, MixedLindbladOpenSystem.new, harity])
  refine ⟨⟨{ migInit two with noise := { (migInit two).noise with
      internal := assocSet (migInit two).noise.internal (dp, dp)
        (⟨2, 0⟩ : CalculatorComplex) } }⟩, ?_, ?_, ?_⟩
  · rw [from_struqture_two_decode m two hcheck, hham, hnoise]
    show (match noiseLoop (migInit two) [((t, t), ⟨2, 0⟩)] with
      | Except.error e => Except.error e
      | Except.ok after_noise =>
        Except.ok (⟨after_noise⟩ : MixedLindbladOpenSystemWrapper)) = _
    rw [noiseLoop_cons_ok hstep]
    rfl
  · simp [migInit, MixedLindbladOpenSystem.new, assocSet,
      MixedLindbladNoiseSystem.get, List.lookup]
  · simp [migInit, MixedLindbladOpenSystem.new, assocSet]

/-- The C7 witness's foreign system: one noise entry keyed by the same
product text on both sides, coefficient 2. -/
def c7two : TwoMixedLindbladOpenSystem :=
  ⟨[1], [2], [1], [],
    [((renderMixed sampleProduct, renderMixed sampleProduct), ⟨2, 0⟩)]⟩

/-- Witness for C7 at a concrete `(dp, dp)` noise pair. -/
theorem c7_witness :
    ∃ w, from_struqture_two
        ⟨MetaResult.ok ⟨"MixedLindbladOpenSystem", ⟨2, 0, 0⟩, ⟨1, 0, 0⟩⟩,
          BytesResult.ok (ByteBuf.encodes c7two)⟩ = Except.ok w ∧
      w.internal.noise.get (sampleProduct, sampleProduct) = ⟨2, 0⟩ ∧
      w.internal.noise.internal.length = 1 :=
  c7_noise_pair_scenario _ c7two (renderMixed sampleProduct) sampleProduct
    (check_ok_of _ (by decide) (by decide)) (by decide) rfl rfl (by decide)

instance (p : MixedDecoherenceProduct) : Decidable p.valid := by
  unfold MixedDecoherenceProduct.valid
  infer_instance

/-- **C6**: for every valid key of each species kind, of the mixed kind and
of the Hermitian-mixed kind, rendering to canonical text and reparsing under
the current grammar recovers the key; in particular every foreign key whose
text is the canonical form of a current key reparses to an equal key. -/
theorem c6_roundtrip_all_kinds :
    (∀ p : SpinDecoherenceProduct, p.valid →
      SpinDecoherenceProduct.from_str (renderSpinSeg p) = some p) ∧
    (∀ p : BosonProduct, p.valid →
      BosonProduct.from_str (renderBosonSeg p) = some p) ∧
    (∀ p : FermionProduct, p.valid →
      FermionProduct.from_str (renderFermionSeg p) = some p) ∧
    (∀ p : MixedDecoherenceProduct, p.valid →
      MixedDecoherenceProduct.from_str (renderMixed p) = some p) ∧
    (∀ k : HermitianMixedProduct, k.val.valid →
      HermitianMixedProduct.from_str k.render = some k) := by
  refine ⟨?_, ?_, ?_, fun p _ => from_str_renderMixed p,
    fun k _ => from_str_render_hermitian k⟩
  · intro p _
    unfold SpinDecoherenceProduct.from_str
    rw [parseSegment_renderSpinSeg]
    rfl
  · intro p _
    unfold BosonProduct.from_str
    rw [parseSegment_renderBosonSeg]
    rfl
  · intro p _
    unfold FermionProduct.from_str
    rw [parseSegment_renderFermionSeg]
    rfl

/-- Witness for C6 at concrete valid keys of three kinds. -/
theorem c6_witness :
    SpinDecoherenceProduct.from_str
        (renderSpinSeg ⟨[(0, SpinOp.Z), (2, SpinOp.X)]⟩) =
      some ⟨[(0, SpinOp.Z), (2, SpinOp.X)]⟩ ∧
    MixedDecoherenceProduct.from_str (renderMixed sampleProduct) =
      some sampleProduct ∧
    HermitianMixedProduct.from_str sampleKey.render = some sampleKey :=
  ⟨c6_roundtrip_all_kinds.1 _ (by decide),
   c6_roundtrip_all_kinds.2.2.2.1 _ (by decide),
   c6_roundtrip_all_kinds.2.2.2.2 _ (by decide)⟩

end Struqture
